import Mathlib

/-!
A shallow embedding of the tape-to-jest codemod (`src/transformers/tape.js`)
together with theorems about its rewrite rules.

The transformer operates on a mutable JavaScript AST produced by jscodeshift.
We embed the fragment of the ESTree AST that the transformer inspects:
identifiers, literals (whose runtime value carries a JavaScript `typeof` tag),
object literals with identifier keys, call expressions, (non-computed) member
expressions, and arrow/function expressions whose bodies are statement blocks.
Source text is identified with its parsed program (a list of statements);
the external parser and printer are treated as the identity on this model.

JavaScript behaviour is embedded explicitly: reading a missing array element
yields `undefined` (`JSVal.undefinedVal` / an `Option`), and field access on
`undefined` (a TypeError that aborts the transform) is an `Except.error`.
-/

namespace TapeCodemod

/-- The runtime value stored in a `Literal` AST node, tagged the way
`typeof` distinguishes them: string literals, numbers, booleans, regular
expression literals (whose `value` is a RegExp object, so `typeof` is
`"object"`, not `"string"`), and `undefined`. -/
inductive JSVal where
  | str (s : String)
  | num (n : Int)
  | bool (b : Bool)
  | regex (pattern : String)
  | undefinedVal
deriving DecidableEq

mutual
/-- ESTree expression nodes used by the transformer. `lit` is a `Literal`
node; `member` is a non-computed `MemberExpression` (the property slot holds
an expression, normally an identifier — the rewriter itself builds a member
expression whose property is a call, exactly as `j.memberExpression` at
lines 181-187 of the source does). Function parameters are identifier
names. -/
inductive Expr where
  | ident (name : String)
  | lit (value : JSVal)
  | objectExpr (props : PropList)
  | call (callee : Expr) (args : ExprList)
  | member (obj : Expr) (prop : Expr)
  | arrowFn (params : List String) (body : StmtList)
  | funcExpr (params : List String) (body : StmtList)

/-- The `arguments` array of a call expression. -/
inductive ExprList where
  | nil
  | cons (head : Expr) (tail : ExprList)

/-- Properties of an `ObjectExpression`, with identifier keys
(`tapeOption.key.name` in the source reads the key as an identifier). -/
inductive PropList where
  | nil
  | cons (key : String) (value : Expr) (tail : PropList)

/-- Statements: expression statements, and require/import declarations
(`const <binding> = require('<source>')` or `import <binding> from
'<source>'`), which the import utilities match on. -/
inductive Stmt where
  | exprStmt (e : Expr)
  | importStmt (binding : String) (source : String)

/-- A statement block (a function body, or the whole program). -/
inductive StmtList where
  | nil
  | cons (head : Stmt) (tail : StmtList)
end

/-- Build an `ExprList` from a `List`. -/
def el : List Expr → ExprList
  | [] => .nil
  | e :: r => .cons e (el r)

/-- Build a `StmtList` from a `List`. -/
def sl : List Stmt → StmtList
  | [] => .nil
  | s :: r => .cons s (sl r)

/-- `arguments.length`. -/
def exprListLength : ExprList → Nat
  | .nil => 0
  | .cons _ r => exprListLength r + 1

/-- `arguments[i]` as an `Option` (a missing index is JavaScript
`undefined`). -/
def exprListGet? : ExprList → Nat → Option Expr
  | .nil, _ => none
  | .cons e _, 0 => some e
  | .cons _ r, n + 1 => exprListGet? r n

/-- `arguments[arguments.length - 1]` as an `Option`: `none` is the
`undefined` an empty `arguments` array yields. -/
def exprListLast? : ExprList → Option Expr
  | .nil => none
  | .cons e .nil => some e
  | .cons _ (.cons e r) => exprListLast? (.cons e r)

/-- Append a single expression at the end of an argument list. -/
def exprListSnoc : ExprList → Expr → ExprList
  | .nil, e => .cons e .nil
  | .cons a r, e => .cons a (exprListSnoc r e)

/-- All arguments but the last (used to model the in-place replacement
`p.node.arguments[p.node.arguments.length - 1] = arrowFunction`). -/
def exprListDropLast : ExprList → ExprList
  | .nil => .nil
  | .cons _ .nil => .nil
  | .cons a (.cons e r) => .cons a (exprListDropLast (.cons e r))

/-- `arguments[i]` with JavaScript semantics: a missing element reads as
`undefined`. -/
def getArg (args : ExprList) (i : Nat) : Expr :=
  (exprListGet? args i).getD (.lit .undefinedVal)

/-- `node.value` of a property's value node: the `value` field of a
`Literal`, and `undefined` for every other node kind (reading `.value` on a
non-literal yields `undefined` in JavaScript). -/
def exprValue : Expr → JSVal
  | .lit v => v
  | _ => .undefinedVal

/-- `a.type === 'ObjectExpression'`. -/
def isObjectExpr : Expr → Bool
  | .objectExpr _ => true
  | _ => false

/-- `args[1].type === 'Literal' && typeof args[1].value === 'string'`
for a single node: a `Literal` whose value is a string. -/
def isStringLiteral : Expr → Bool
  | .lit (.str _) => true
  | _ => false

/-! ### Rule tables (lines 8-72 of the source) -/

/-- Line 8: the marker value stored in the mapping table for the
throws/doesNotThrow special case. -/
def SPECIAL_THROWS_CASE : String := "(special throws case)"

/-- Lines 10-48: the assertion-name mapping table `tapeToJestExpect`,
as an association list in source order. -/
def tapeToJestExpect : List (String × String) :=
  [("ok", "toBeTruthy"), ("true", "toBeTruthy"), ("assert", "toBeTruthy"),
   ("notOk", "toBeFalsy"), ("false", "toBeFalsy"), ("notok", "toBeFalsy"),
   ("equal", "toBe"), ("equals", "toBe"), ("isEqual", "toBe"),
   ("strictEqual", "toBe"), ("strictEquals", "toBe"),
   ("notEqual", "not.toBe"), ("notStrictEqual", "not.toBe"),
   ("notStrictEquals", "not.toBe"), ("isNotEqual", "not.toBe"),
   ("doesNotEqual", "not.toBe"), ("isInequal", "not.toBe"),
   ("deepEqual", "toEqual"), ("isEquivalent", "toEqual"), ("same", "toEqual"),
   ("notDeepEqual", "not.toEqual"), ("notEquivalent", "not.toEqual"),
   ("notDeeply", "not.toEqual"), ("notSame", "not.toEqual"),
   ("isNotDeepEqual", "not.toEqual"), ("isNotEquivalent", "not.toEqual"),
   ("isInequivalent", "not.toEqual"),
   ("throws", SPECIAL_THROWS_CASE), ("doesNotThrow", SPECIAL_THROWS_CASE)]

/-- `tapeToJestExpect[name]` (`undefined`-free: the rewriter only consults
the table after the find predicate checked the key is present). -/
def lookupAssert (name : String) : Option String :=
  (tapeToJestExpect.find? (fun kv => kv.1 == name)).map (fun kv => kv.2)

/-- Lines 50-67: the denylist `unsupportedTProperties`. -/
def unsupportedTProperties : List String :=
  ["timeoutAfter",
   "deepLooseEqual", "looseEqual", "looseEquals",
   "notDeepLooseEqual", "notLooseEqual", "notLooseEquals",
   "fail", "pass", "error", "ifErr", "iferror", "skip"]

/-- Lines 69-72: the denylist `unsupportedTestFunctionProperties`. -/
def unsupportedTestFunctionProperties : List String :=
  ["createStream", "onFinish"]

/-! ### String helpers (`propertyName.toLowerCase().indexOf('looseequal') >= 0`) -/

/-- ASCII lowercasing of one character (what `toLowerCase` does on the
identifier characters appearing in the denylist). -/
def lowerChar (c : Char) : Char :=
  if c.toNat ≥ 65 ∧ c.toNat ≤ 90 then Char.ofNat (c.toNat + 32) else c

/-- `s.toLowerCase()`. -/
def lowerString (s : String) : String := String.mk (s.data.map lowerChar)

/-- Whether `needle` occurs as a contiguous run of `hay`
(`hay.indexOf(needle) >= 0`). -/
def listContainsSub (needle : List Char) : List Char → Bool
  | [] => needle.isEmpty
  | c :: rest => needle.isPrefixOf (c :: rest) || listContainsSub needle rest

/-- `hay.indexOf(needle) >= 0` on strings. -/
def containsSub (hay needle : String) : Bool :=
  listContainsSub needle.toList hay.toList

/-! ### Library usage detection and import utilities

The functions `hasRequireOrImport` and `removeRequireAndImport` live in
`src/utils/imports`, which is not part of the sources; they are modelled
from the spec. -/

/-- Whether one statement is a require/import of `source`. -/
def stmtImports (s : Stmt) (source : String) : Bool :=
  match s with
  | .importStmt _ so => so == source
  | _ => false

/-- Modelled from the spec: `hasRequireOrImport` from `src/utils/imports`
(absent from the sources) — whether the file requires/imports the named
module (spec sections 4.7 and 4.1). -/
def hasRequireOrImport : StmtList → String → Bool
  | .nil, _ => false
  | .cons s rest, source => stmtImports s source || hasRequireOrImport rest source

/-- The local binding name of the first require/import of `source`,
if one exists. -/
def findImportBinding : StmtList → String → Option String
  | .nil, _ => none
  | .cons (.importStmt b so) rest, source =>
    if so == source then some b else findImportBinding rest source
  | .cons _ rest, source => findImportBinding rest source

/-- Remove every require/import statement of `source`. -/
def dropImports : StmtList → String → StmtList
  | .nil, _ => .nil
  | .cons s rest, source =>
    if stmtImports s source then dropImports rest source
    else .cons s (dropImports rest source)

/-- Modelled from the spec: `removeRequireAndImport` from
`src/utils/imports` (absent from the sources) — locate a require/import of
`source`, remove it from the tree, and return the local binding bound to
the module; if no such statement exists, mutate nothing and signal absence
(spec section 4.1; removal drops every require/import of the module — the
spec's idempotence property in section 8 presumes none remains). -/
def removeRequireAndImport (prog : StmtList) (source : String) :
    Option String × StmtList :=
  match findImportBinding prog source with
  | none => (none, prog)
  | some binding => (some binding, dropImports prog source)

/-! ### Generic traversal helpers

jscodeshift's `ast.find(j.CallExpression, pattern).forEach(rewrite)` is
embedded as a bottom-up structural rewrite applying a local rule at every
node (the rule is the identity on nodes the pattern does not match), and
`find(...).forEach(logWarning)` as a preorder collection of warning
messages. -/

mutual
/-- Bottom-up rewrite of an expression, applying `f` at every rebuilt
node. -/
def mapExpr (f : Expr → Expr) : Expr → Expr
  | .ident n => f (.ident n)
  | .lit v => f (.lit v)
  | .objectExpr props => f (.objectExpr (mapProps f props))
  | .call c args => f (.call (mapExpr f c) (mapExprList f args))
  | .member o p => f (.member (mapExpr f o) (mapExpr f p))
  | .arrowFn ps body => f (.arrowFn ps (mapStmts f body))
  | .funcExpr ps body => f (.funcExpr ps (mapStmts f body))

/-- `mapExpr` over an argument list. -/
def mapExprList (f : Expr → Expr) : ExprList → ExprList
  | .nil => .nil
  | .cons e r => .cons (mapExpr f e) (mapExprList f r)

/-- `mapExpr` over object properties. -/
def mapProps (f : Expr → Expr) : PropList → PropList
  | .nil => .nil
  | .cons k v r => .cons k (mapExpr f v) (mapProps f r)

/-- `mapExpr` over each expression statement of a block; import
declarations are not call expressions and are left untouched. -/
def mapStmts (f : Expr → Expr) : StmtList → StmtList
  | .nil => .nil
  | .cons (.exprStmt e) r => .cons (.exprStmt (mapExpr f e)) (mapStmts f r)
  | .cons (.importStmt b so) r => .cons (.importStmt b so) (mapStmts f r)
end

mutual
/-- Preorder collection of warning messages over an expression. -/
def collectExpr (f : Expr → List String) : Expr → List String
  | .ident n => f (.ident n)
  | .lit v => f (.lit v)
  | .objectExpr props => f (.objectExpr props) ++ collectProps f props
  | .call c args => f (.call c args) ++ collectExpr f c ++ collectExprList f args
  | .member o p => f (.member o p) ++ collectExpr f o ++ collectExpr f p
  | .arrowFn ps body => f (.arrowFn ps body) ++ collectStmts f body
  | .funcExpr ps body => f (.funcExpr ps body) ++ collectStmts f body

/-- `collectExpr` over an argument list. -/
def collectExprList (f : Expr → List String) : ExprList → List String
  | .nil => []
  | .cons e r => collectExpr f e ++ collectExprList f r

/-- `collectExpr` over object properties. -/
def collectProps (f : Expr → List String) : PropList → List String
  | .nil => []
  | .cons _ v r => collectExpr f v ++ collectProps f r

/-- `collectExpr` over a statement block. -/
def collectStmts (f : Expr → List String) : StmtList → List String
  | .nil => []
  | .cons (.exprStmt e) r => collectExpr f e ++ collectStmts f r
  | .cons (.importStmt _ _) r => collectStmts f r
end

/-! ### Naming convention checker (lines 88-111) -/

/-- Lines 92-97: warn when the first parameter of a function-valued last
argument is not named `t`. -/
def validateParams (params : List String) : List String :=
  match params.head? with
  | some lastArgName =>
    if lastArgName = "t" then []
    else [s!"argument to test function should be named \"t\" not \"{lastArgName}\""]
  | none => []

/-- Lines 90-98: `validateTestArgument` — inspect the last argument; only
function-valued nodes have a `params` field. -/
def validateTestArgMsg (args : ExprList) : List String :=
  match exprListLast? args with
  | some (.arrowFn ps _) => validateParams ps
  | some (.funcExpr ps _) => validateParams ps
  | _ => []

/-- Lines 100-105: calls of the form `<testFn>.<anything>(...)`. -/
def namingWarnMember (testFunctionName : String) : Expr → List String
  | .call (.member (.ident objName) _) args =>
    if objName = testFunctionName then validateTestArgMsg args else []
  | _ => []

/-- Lines 107-110: bare calls `<testFn>(...)`. -/
def namingWarnBare (testFunctionName : String) : Expr → List String
  | .call (.ident calleeName) args =>
    if calleeName = testFunctionName then validateTestArgMsg args else []
  | _ => []

/-- Lines 88-111: `detectUnsupportedNaming` — two sweeps, member-callee
calls first, then bare calls, exactly as the two `ast.find` invocations. -/
def detectUnsupportedNaming (testFunctionName : String) (prog : StmtList) :
    List String :=
  collectStmts (namingWarnMember testFunctionName) prog ++
    collectStmts (namingWarnBare testFunctionName) prog

/-! ### Unsupported feature scanner (lines 113-139) -/

/-- Lines 114-127: `t.<member>(...)` with a denylisted member; the
"looseequal" sub-family gets specialized wording. -/
def featuresWarnT : Expr → List String
  | .call (.member (.ident "t") (.ident propertyName)) _ =>
    if unsupportedTProperties.contains propertyName then
      if containsSub (lowerString propertyName) "looseequal" then
        [s!"\"{propertyName}\" is currently not supported. Try the stricter \"toEqual\" or \"not.toEqual\""]
      else
        [s!"\"{propertyName}\" is currently not supported"]
    else []
  | _ => []

/-- Lines 129-138: `<testFn>.<member>(...)` with a denylisted member. -/
def featuresWarnTestFn (testFunctionName : String) : Expr → List String
  | .call (.member (.ident objName) (.ident propertyName)) _ =>
    if objName == testFunctionName &&
        unsupportedTestFunctionProperties.contains propertyName then
      [s!"\"{propertyName}\" is currently not supported"]
    else []
  | _ => []

/-- Lines 113-139: `detectUnsupportedFeatures`, the two scans in source
order. -/
def detectUnsupportedFeatures (testFunctionName : String) (prog : StmtList) :
    List String :=
  collectStmts featuresWarnT prog ++
    collectStmts (featuresWarnTestFn testFunctionName) prog

/-! ### Assertion rewriter (lines 141-191) -/

/-- Line 172: the mapping targets that carry the call's second argument. -/
def PROP_WITH_SECONDS_ARGS : List String :=
  ["toBe", "not.toBe", "toEqual", "not.toEqual"]

/-- Lines 181-187: the replacement — a member expression whose object is
`expect(<first argument>)` and whose property slot holds the new condition
call. -/
def expectChain (subject : Expr) (condition : Expr) : Expr :=
  .member (.call (.ident "expect") (.cons subject .nil)) condition

/-- Lines 148-189: the per-call rewrite of `updateAssertions`, given the old
member name and its mapping target. In the throws special case: no error
matcher is present when there is exactly one argument, or exactly two with a
string-literal second; then a zero-argument `toThrow` (or `not.toThrow` for
`doesNotThrow`) is produced, else `toThrowError` carrying the second
argument. Ordinary mappings carry the second argument exactly when the
target is in `PROP_WITH_SECONDS_ARGS`. -/
def updateAssertionRule (oldPropertyName newPropertyName : String)
    (args : ExprList) : Expr :=
  let newCondition :=
    if newPropertyName = SPECIAL_THROWS_CASE then
      let secondArgString :=
        exprListLength args == 2 && isStringLiteral (getArg args 1)
      let noErrorType := exprListLength args == 1 || secondArgString
      if noErrorType then
        Expr.call
          (.ident (if oldPropertyName = "throws" then "toThrow" else "not.toThrow"))
          .nil
      else
        Expr.call (.ident "toThrowError") (.cons (getArg args 1) .nil)
    else
      let hasSecondArgument := PROP_WITH_SECONDS_ARGS.contains newPropertyName
      let conditionArgs :=
        if hasSecondArgument then ExprList.cons (getArg args 1) .nil
        else ExprList.nil
      Expr.call (.ident newPropertyName) conditionArgs
  expectChain (getArg args 0) newCondition

/-- Lines 142-147 and 189: the find pattern of `updateAssertions` — a call
`t.<member>(...)` whose member is a key of the mapping table — combined with
the in-place `replaceWith`. -/
def assertionDispatch : Expr → Expr
  | .call (.member (.ident "t") (.ident prop)) args =>
    match lookupAssert prop with
    | some newName => updateAssertionRule prop newName args
    | none => .call (.member (.ident "t") (.ident prop)) args
  | e => e

/-! ### Comment call rewriter (lines 193-203) -/

/-- Lines 193-203: `updateTapeComments` — replace the callee of
`t.comment(...)`; the source assigns the raw string `'console.log'` to the
callee slot, modelled as an identifier of that name. Arguments are kept. -/
def commentDispatch : Expr → Expr
  | .call (.member (.ident "t") (.ident "comment")) args =>
    .call (.ident "console.log") args
  | e => e

/-! ### Test-registration rewriter (lines 205-268)

The `t.end` scope check at lines 215-225 reads
`pEnd.parent.parent.parent.node` — the node exactly three ancestor levels
above the `t.end(...)` call — and prunes the call when that node has a
`params` array whose first element is named `t`. For a call that is a
direct expression statement in a function's block body those three levels
are: ExpressionStatement, BlockStatement, then the function. In every
other position expressible in this model (an argument or subexpression of
another call, a member-expression slot, an object-property value) the
third ancestor is a call, statement, Property, ObjectExpression or Program
node, which has no `params` field, so the check is false and the call is
kept. The traversal below therefore carries the one fact the check can
observe: the parameter list of the function whose block body directly
contains the statement being visited (`none` when the enclosing block is
not a function body, e.g. the top-level program). -/

/-- Lines 217-218: `outerParent.params && outerParent.params[0] &&
outerParent.params[0].name === 't'`, where `outerParent` is the node three
ancestor levels above the `t.end` call: its parameter list when it is a
function node, `none` otherwise (no `params` field). The source variable
holding this test is named `inTestScope`. -/
def inTestScope (outerParams : Option (List String)) : Bool :=
  match outerParams with
  | some params => params.head? == some "t"
  | none => false

/-- The find pattern of lines 209-214: a call `t.end(...)`. -/
def isDirectTEndCall : Expr → Bool
  | .call (.member (.ident "t") (.ident "end")) _ => true
  | _ => false

mutual
/-- The `t.end` search of lines 209-226 over one expression. Returns the
rewritten expression and whether some `t.end(...)` call was found and kept
(not pruned) — the `.filter(...).size() > 0` result that triggers the
warning. A `t.end` call in expression (non-statement) position is always
kept: its third ancestor is never a function node. -/
def endExpr : Expr → Expr × Bool
  | .ident n => (.ident n, false)
  | .lit v => (.lit v, false)
  | .objectExpr props =>
    let r := endProps props
    (.objectExpr r.1, r.2)
  | .call c args =>
    let rc := endExpr c
    let ra := endExprList args
    let isEnd := match c with
      | .member (.ident "t") (.ident "end") => true
      | _ => false
    (.call rc.1 ra.1, isEnd || rc.2 || ra.2)
  | .member o p =>
    let ro := endExpr o
    let rp := endExpr p
    (.member ro.1 rp.1, ro.2 || rp.2)
  | .arrowFn ps body =>
    let r := endStmts body (some ps)
    (.arrowFn ps r.1, r.2)
  | .funcExpr ps body =>
    let r := endStmts body (some ps)
    (.funcExpr ps r.1, r.2)

/-- `endExpr` over an argument list. -/
def endExprList : ExprList → ExprList × Bool
  | .nil => (.nil, false)
  | .cons e rest =>
    let r1 := endExpr e
    let r2 := endExprList rest
    (.cons r1.1 r2.1, r1.2 || r2.2)

/-- `endExpr` over object properties. -/
def endProps : PropList → PropList × Bool
  | .nil => (.nil, false)
  | .cons k v rest =>
    let r1 := endExpr v
    let r2 := endProps rest
    (.cons k r1.1 r2.1, r1.2 || r2.2)

/-- One statement, given the parameter list of the function whose block
body directly contains it (the third ancestor of a call filling the
statement): a direct `t.end(...)` expression statement is pruned
(`pEnd.prune()` removes the whole expression statement) exactly when
`inTestScope` holds of that function; otherwise the statement is visited
by `endExpr`, which keeps and counts any `t.end` call it contains. -/
def endStmt : Stmt → Option (List String) → Option Stmt × Bool
  | .importStmt b so, _ => (some (.importStmt b so), false)
  | .exprStmt e, encl =>
    if isDirectTEndCall e && inTestScope encl then (none, false)
    else
      let r := endExpr e
      (some (.exprStmt r.1), r.2)

/-- `endStmt` over a block, dropping pruned statements. -/
def endStmts : StmtList → Option (List String) → StmtList × Bool
  | .nil, _ => (.nil, false)
  | .cons s rest, encl =>
    let r1 := endStmt s encl
    let r2 := endStmts rest encl
    ((match r1.1 with
      | none => r2.1
      | some s2 => .cons s2 r2.1), r1.2 || r2.2)
end

/-- Line 229: the warning for a `t.end` call left in place. -/
def END_WARNING : String :=
  "t.end is currently not supported in callbacks (maybe return a promise)"

/-- Lines 235-245: whether any property of the object option has key
`skip` with value literally `true` (`tapeOption.value.value === true`). -/
def propsHaveSkipTrue : PropList → Bool
  | .nil => false
  | .cons k v rest =>
    (k == "skip" && exprValue v == JSVal.bool true) || propsHaveSkipTrue rest

/-- Lines 233-249: whether some object-literal argument carries
`skip: true`. Every object argument is inspected (the `forEach` walks the
original argument array), and the assignment `callee.name = 'test.skip'`
is idempotent, so any such property sets the name. -/
def skipOptionSet : ExprList → Bool
  | .nil => false
  | .cons a rest =>
    (match a with
     | .objectExpr props => propsHaveSkipTrue props
     | _ => false) || skipOptionSet rest

/-- Lines 242-244: one `"timeout" option` warning per `timeout` key. -/
def propsTimeoutWarns : PropList → List String
  | .nil => []
  | .cons k _ rest =>
    (if k == "timeout" then ["\"timeout\" option is currently not supported"] else []) ++
      propsTimeoutWarns rest

/-- Timeout warnings over every object-literal argument, in order. -/
def optionTimeoutWarns : ExprList → List String
  | .nil => []
  | .cons a rest =>
    (match a with
     | .objectExpr props => propsTimeoutWarns props
     | _ => []) ++ optionTimeoutWarns rest

/-- Line 247: `arguments.filter(pa => pa.type !== 'ObjectExpression')`. -/
def filterObjectArgs : ExprList → ExprList
  | .nil => .nil
  | .cons a rest =>
    if isObjectExpr a then filterObjectArgs rest
    else .cons a (filterObjectArgs rest)

/-- Lines 208-267: the body of `rewriteTestCallExpression` for one matched
call `<testFn>(args...)`, given the call's own ancestor chain `callAnc`.
In source order: (1) lines 209-230, the scoped `t.end` pruning and its
warning; (2) lines 232-249, option-object handling — a `skip: true`
property sets the callee name to `test.skip`, each `timeout` key warns,
and all object-literal arguments are then removed; (3) lines 251-253, the
rename to `test` unless the name is `xit` (this runs after step 2, so a
`test.skip` name set there is overwritten); (4) lines 255-266, the last
argument has its parameter list replaced by the placeholder — reading
`.type` of the `undefined` last element of an empty argument array is a
TypeError that aborts the transform. -/
def processTestCall (calleeName : String) (args : ExprList) :
    Except String (Expr × List String) :=
  let endResult := endExprList args
  let args1 := endResult.1
  let endWarns := if endResult.2 then [END_WARNING] else []
  let timeoutWarns := optionTimeoutWarns args1
  let name1 := if skipOptionSet args1 then "test.skip" else calleeName
  let args2 := filterObjectArgs args1
  let name2 := if name1 = "xit" then name1 else "test"
  match exprListLast? args2 with
  | none => .error "TypeError: Cannot read properties of undefined (reading 'type')"
  | some lastArg =>
    let newLast :=
      match lastArg with
      | .arrowFn _ body => Expr.arrowFn ["()"] body
      | .funcExpr _ body => Expr.funcExpr [""] body
      | other => other
    .ok (.call (.ident name2) (exprListSnoc (exprListDropLast args2) newLast),
         endWarns ++ timeoutWarns)

/-- The printer renders the placeholder parameter identifiers the rewriter
installs — `"()"` in the arrow case (line 259) and `""` in the
function-expression case (line 265) — as an empty parameter list. -/
def renderedParams (params : List String) : List String :=
  params.filter (fun nm => nm != "()" && nm != "")

mutual
/-- Lines 206-208: the find pattern of `rewriteTestCallExpression` — only
calls whose callee is the bare identifier `testFunctionName` are matched
(a member-expression callee such as `test.only` has no `name` field and
never matches the pattern `callee: { name: testFunctionName }`). -/
def rtcExpr (testFunctionName : String) :
    Expr → Except String (Expr × List String)
  | .ident n => .ok (.ident n, [])
  | .lit v => .ok (.lit v, [])
  | .objectExpr props => do
    let r ← rtcProps testFunctionName props
    .ok (.objectExpr r.1, r.2)
  | .call c args => do
    let rc ← rtcExpr testFunctionName c
    let ra ← rtcExprList testFunctionName args
    match rc.1 with
    | .ident calleeName =>
      if calleeName = testFunctionName then do
        let r ← processTestCall calleeName ra.1
        .ok (r.1, rc.2 ++ ra.2 ++ r.2)
      else .ok (.call (.ident calleeName) ra.1, rc.2 ++ ra.2)
    | c2 => .ok (.call c2 ra.1, rc.2 ++ ra.2)
  | .member o p => do
    let ro ← rtcExpr testFunctionName o
    let rp ← rtcExpr testFunctionName p
    .ok (.member ro.1 rp.1, ro.2 ++ rp.2)
  | .arrowFn ps body => do
    let r ← rtcStmtList testFunctionName body
    .ok (.arrowFn ps r.1, r.2)
  | .funcExpr ps body => do
    let r ← rtcStmtList testFunctionName body
    .ok (.funcExpr ps r.1, r.2)

/-- `rtcExpr` over an argument list. -/
def rtcExprList (testFunctionName : String) :
    ExprList → Except String (ExprList × List String)
  | .nil => .ok (.nil, [])
  | .cons e rest => do
    let r1 ← rtcExpr testFunctionName e
    let r2 ← rtcExprList testFunctionName rest
    .ok (.cons r1.1 r2.1, r1.2 ++ r2.2)

/-- `rtcExpr` over object properties. -/
def rtcProps (testFunctionName : String) :
    PropList → Except String (PropList × List String)
  | .nil => .ok (.nil, [])
  | .cons k v rest => do
    let r1 ← rtcExpr testFunctionName v
    let r2 ← rtcProps testFunctionName rest
    .ok (.cons k r1.1 r2.1, r1.2 ++ r2.2)

/-- `rtcExpr` over one statement. -/
def rtcStmt (testFunctionName : String) :
    Stmt → Except String (Stmt × List String)
  | .importStmt b so => .ok (.importStmt b so, [])
  | .exprStmt e => do
    let r ← rtcExpr testFunctionName e
    .ok (.exprStmt r.1, r.2)

/-- `rtcStmt` over a block. -/
def rtcStmtList (testFunctionName : String) :
    StmtList → Except String (StmtList × List String)
  | .nil => .ok (.nil, [])
  | .cons s rest => do
    let r1 ← rtcStmt testFunctionName s
    let r2 ← rtcStmtList testFunctionName rest
    .ok (.cons r1.1 r2.1, r1.2 ++ r2.2)
end

/-! ### Problematic dependency scanner (lines 270-276) -/

/-- Lines 270-276: `detectProblematicPackages`, iterating the two-element
denylist in order. -/
def detectProblematicPackages (prog : StmtList) : List String :=
  (if hasRequireOrImport prog "proxyquire" then
    ["Usage of package \"proxyquire\" might be incompatible with Jest"]
   else []) ++
  (if hasRequireOrImport prog "testdouble" then
    ["Usage of package \"testdouble\" might be incompatible with Jest"]
   else [])

/-! ### The whole transform (lines 74-285) -/

/-- Lines 74-285: `tapeToJest` on one parsed file. The Tape require/import
is removed first; if none is found the original source is returned
unchanged (and no pass runs). Otherwise the passes run in the order of the
`transforms` array — naming check, unsupported-feature scan, assertion
rewriting, comment rewriting, test-registration rewriting, problematic
package scan — over the same tree, and the transformed tree is returned
together with every warning emitted (the quote-style detection of lines
281-284 is purely cosmetic and not modelled). A thrown TypeError is an
`Except.error`. -/
def tapeToJest (prog : StmtList) : Except String (StmtList × List String) :=
  match removeRequireAndImport prog "tape" with
  | (none, _) => .ok (prog, [])
  | (some testFunctionName, ast0) =>
    let w1 := detectUnsupportedNaming testFunctionName ast0
    let w2 := detectUnsupportedFeatures testFunctionName ast0
    let ast1 := mapStmts assertionDispatch ast0
    let ast2 := mapStmts commentDispatch ast1
    match rtcStmtList testFunctionName ast2 with
    | .error msg => .error msg
    | .ok (ast3, w3) =>
      let w4 := detectProblematicPackages ast3
      .ok (ast3, w1 ++ w2 ++ w3 ++ w4)

/-! ## Helper lemmas -/

/-- If a program has no require/import of `src`, none can be located. -/
theorem findImportBinding_eq_none :
    ∀ (prog : StmtList) (src : String), hasRequireOrImport prog src = false →
      findImportBinding prog src = none
  | .nil, _, _ => rfl
  | .cons (.exprStmt _) rest, src, h => by
    simp [hasRequireOrImport, stmtImports] at h
    simp [findImportBinding, findImportBinding_eq_none rest src h]
  | .cons (.importStmt b so) rest, src, h => by
    simp [hasRequireOrImport, stmtImports] at h
    simp [findImportBinding, h.1, findImportBinding_eq_none rest src h.2]

/-- When the usage detector finds no require/import of the source library,
the transform returns the original program unchanged with no warnings. -/
theorem tapeToJest_no_import (prog : StmtList)
    (h : hasRequireOrImport prog "tape" = false) :
    tapeToJest prog = .ok (prog, []) := by
  have hf := findImportBinding_eq_none prog "tape" h
  simp [tapeToJest, removeRequireAndImport, hf]

/-- Removal removes every require/import of the module. -/
theorem dropImports_no_import :
    ∀ (prog : StmtList) (src : String),
      hasRequireOrImport (dropImports prog src) src = false
  | .nil, _ => rfl
  | .cons s rest, src => by
    by_cases hsi : stmtImports s src = true
    · simp [dropImports, hsi, dropImports_no_import rest src]
    · simp at hsi
      simp [dropImports, hsi, hasRequireOrImport, dropImports_no_import rest src]

/-- The pure rewrite passes touch only expression statements, so they
neither remove nor introduce require/import statements. -/
theorem hasRequireOrImport_mapStmts :
    ∀ (f : Expr → Expr) (prog : StmtList) (src : String),
      hasRequireOrImport (mapStmts f prog) src = hasRequireOrImport prog src
  | _, .nil, _ => rfl
  | f, .cons (.exprStmt _) rest, src => by
    simp [mapStmts, hasRequireOrImport, stmtImports, hasRequireOrImport_mapStmts f rest src]
  | f, .cons (.importStmt b so) rest, src => by
    simp [mapStmts, hasRequireOrImport, stmtImports, hasRequireOrImport_mapStmts f rest src]

/-- The test-registration rewriter maps import statements to themselves and
expression statements to expression statements. -/
theorem rtcStmt_stmtImports (tf : String) (s s2 : Stmt) (ws : List String)
    (h : rtcStmt tf s = .ok (s2, ws)) (src : String) :
    stmtImports s2 src = stmtImports s src := by
  cases s with
  | importStmt b so =>
    simp [rtcStmt] at h
    simp [h.1.symm]
  | exprStmt e =>
    cases he : rtcExpr tf e with
    | error msg => simp [rtcStmt, he, bind, Except.bind] at h
    | ok r =>
      simp [rtcStmt, he, bind, Except.bind] at h
      simp [h.1.symm, stmtImports]

/-- A successful run of the test-registration rewriter preserves the
presence/absence of require/import statements. -/
theorem rtcStmtList_hasRequire :
    ∀ (tf : String) (l l2 : StmtList) (ws : List String),
      rtcStmtList tf l = .ok (l2, ws) → ∀ src,
        hasRequireOrImport l2 src = hasRequireOrImport l src
  | tf, .nil, l2, ws, h, src => by
    simp [rtcStmtList] at h
    simp [h.1.symm]
  | tf, .cons s rest, l2, ws, h, src => by
    cases h1 : rtcStmt tf s with
    | error msg => simp [rtcStmtList, h1, bind, Except.bind] at h
    | ok r1 =>
      cases h2 : rtcStmtList tf rest with
      | error msg => simp [rtcStmtList, h1, h2, bind, Except.bind] at h
      | ok r2 =>
        simp [rtcStmtList, h1, h2, bind, Except.bind] at h
        rw [h.1.symm]
        simp [hasRequireOrImport,
          rtcStmt_stmtImports tf s r1.1 r1.2 (by rw [h1]) src,
          rtcStmtList_hasRequire tf rest r2.1 r2.2 (by rw [h2]) src]

/-! ## Claims -/

/-- Claim C1: the claim states that `test('x', {skip: true}, t => {...})`
yields `test.skip('x', () => {...})`. Evaluating the transform at this
failing input shows the options argument is removed, but the final callee
is `test`, not `test.skip`: the unconditional rename at lines 251-253 runs
after the option handling and overwrites the `test.skip` name set at line
239 (making that assignment dead), because `'test.skip' !== 'xit'`. -/
theorem claim1_skip_option_code_eval :
    tapeToJest (sl [.importStmt "test" "tape",
      .exprStmt (.call (.ident "test") (el [.lit (.str "x"),
        .objectExpr (.cons "skip" (.lit (.bool true)) .nil),
        .arrowFn ["t"] (sl [.exprStmt (.call (.member (.ident "t") (.ident "plan"))
          (el [.lit (.num 1)]))])]))]) =
    .ok (sl [.exprStmt (.call (.ident "test") (el [.lit (.str "x"),
        .arrowFn ["()"] (sl [.exprStmt (.call (.member (.ident "t") (.ident "plan"))
          (el [.lit (.num 1)]))])]))], []) := rfl

/-- Claim C2: `t.throws(fn)` rewrites to `expect(fn).toThrow()`;
`t.throws(fn, "msg")` (string-literal second argument) also rewrites to
`expect(fn).toThrow()`; `t.throws(fn, m)` with a non-string-literal second
argument rewrites to `expect(fn).toThrowError(m)`; and `t.doesNotThrow(fn)`
rewrites to `expect(fn).not.toThrow()`. -/
theorem claim2_throws_mapping :
    (∀ fn : Expr,
      assertionDispatch (.call (.member (.ident "t") (.ident "throws")) (el [fn])) =
        expectChain fn (.call (.ident "toThrow") .nil))
    ∧ (∀ (fn : Expr) (msg : String),
      assertionDispatch (.call (.member (.ident "t") (.ident "throws"))
          (el [fn, .lit (.str msg)])) =
        expectChain fn (.call (.ident "toThrow") .nil))
    ∧ (∀ (fn m : Expr), isStringLiteral m = false →
      assertionDispatch (.call (.member (.ident "t") (.ident "throws")) (el [fn, m])) =
        expectChain fn (.call (.ident "toThrowError") (.cons m .nil)))
    ∧ (∀ fn : Expr,
      assertionDispatch (.call (.member (.ident "t") (.ident "doesNotThrow")) (el [fn])) =
        expectChain fn (.call (.ident "not.toThrow") .nil)) := by
  refine ⟨fun fn => rfl, fun fn msg => rfl, ?_, fun fn => rfl⟩
  intro fn m h
  simp [assertionDispatch, lookupAssert, tapeToJestExpect, updateAssertionRule,
    SPECIAL_THROWS_CASE, exprListLength, getArg, exprListGet?, el, h]

/-- Claim C2 witness: `t.throws(fn, /pat/)` (regular-expression second
argument) rewrites to `expect(fn).toThrowError(/pat/)`. -/
theorem claim2_throws_mapping_witness :
    assertionDispatch (.call (.member (.ident "t") (.ident "throws"))
        (el [.ident "fn", .lit (.regex "pat")])) =
      expectChain (.ident "fn")
        (.call (.ident "toThrowError") (.cons (.lit (.regex "pat")) .nil)) :=
  claim2_throws_mapping.2.2.1 (.ident "fn") (.lit (.regex "pat")) rfl

/-- Claim C3: for every entry of the mapping table other than the throws
marker, a call `t.<old>(a)` whose target is a truthy/falsy assertion
rewrites to `expect(a).<new>()` with no arguments, and a call
`t.<old>(a, b)` whose target is one of the four reference-comparing forms
rewrites to `expect(a).<new>(b)` carrying exactly the second argument. -/
theorem claim3_table_mapping (oldName newName : String)
    (h : lookupAssert oldName = some newName)
    (hs : newName ≠ SPECIAL_THROWS_CASE) :
    (newName = "toBeTruthy" ∨ newName = "toBeFalsy" →
      ∀ a : Expr,
        assertionDispatch (.call (.member (.ident "t") (.ident oldName)) (.cons a .nil)) =
          expectChain a (.call (.ident newName) .nil))
    ∧ (newName ∈ PROP_WITH_SECONDS_ARGS →
      ∀ a b : Expr,
        assertionDispatch (.call (.member (.ident "t") (.ident oldName))
            (.cons a (.cons b .nil))) =
          expectChain a (.call (.ident newName) (.cons b .nil))) := by
  constructor
  · rintro (rfl | rfl) a <;>
      simp [assertionDispatch, h, updateAssertionRule, SPECIAL_THROWS_CASE,
        PROP_WITH_SECONDS_ARGS, getArg, exprListGet?]
  · intro hmem a b
    fin_cases hmem <;>
      simp [assertionDispatch, h, updateAssertionRule, SPECIAL_THROWS_CASE,
        PROP_WITH_SECONDS_ARGS, getArg, exprListGet?]

/-- Claim C3 witness: `t.equal(a, b)` rewrites to `expect(a).toBe(b)`. -/
theorem claim3_table_mapping_witness :
    assertionDispatch (.call (.member (.ident "t") (.ident "equal"))
        (.cons (.ident "a") (.cons (.ident "b") .nil))) =
      expectChain (.ident "a") (.call (.ident "toBe") (.cons (.ident "b") .nil)) :=
  (claim3_table_mapping "equal" "toBe" rfl (by decide)).2 (by decide)
    (.ident "a") (.ident "b")

/-- Claim C4: a file with no require/import of the source library is
returned unchanged — the transform performs no mutation and yields the
original program (and no warnings). -/
theorem claim4_no_tape_noop (prog : StmtList)
    (h : hasRequireOrImport prog "tape" = false) :
    tapeToJest prog = .ok (prog, []) :=
  tapeToJest_no_import prog h

/-- Claim C4 witness: a concrete tape-free file is returned verbatim. -/
theorem claim4_no_tape_noop_witness :
    tapeToJest (sl [.importStmt "assert" "assert",
      .exprStmt (.call (.ident "foo") (el [.lit (.str "x")]))]) =
    .ok (sl [.importStmt "assert" "assert",
      .exprStmt (.call (.ident "foo") (el [.lit (.str "x")]))], []) :=
  claim4_no_tape_noop _ rfl

/-- Claim C5 counterexample: the claim states that a `t.end` call inside a
further-nested callback is left in place with a warning.  But for
`test('x', t => { setTimeout(function(t) { t.end(); }, 0); })` the code
prunes the nested `t.end();` and emits no warning: the scope check looks
only at the node three ancestor levels above the call — here the nested
`function(t)` itself, whose first parameter is named `t`. -/
theorem claim5_end_scope_counterexample :
    tapeToJest (sl [.importStmt "test" "tape",
      .exprStmt (.call (.ident "test") (el [.lit (.str "x"),
        .arrowFn ["t"] (sl [.exprStmt (.call (.ident "setTimeout") (el [
          .funcExpr ["t"] (sl [.exprStmt (.call (.member (.ident "t") (.ident "end"))
            (el []))]),
          .lit (.num 0)]))])]))]) =
    .ok (sl [.exprStmt (.call (.ident "test") (el [.lit (.str "x"),
        .arrowFn ["()"] (sl [.exprStmt (.call (.ident "setTimeout") (el [
          .funcExpr ["t"] (sl []),
          .lit (.num 0)]))])]))], []) := rfl

/-- Claim C5 amended: a `t.end(...)` expression statement is deleted
exactly when the function whose block body directly contains the statement
(the node three ancestor levels above the call) has a first parameter
named `t` — whether that is the test's own callback or a further-nested
callback; otherwise it is kept and the unsupported-in-callbacks warning is
emitted for the enclosing test call. The two closed conjuncts evaluate the
whole transform: direct `t.end` in the test callback is pruned with no
warning; `t.end` inside a nested parameterless callback is kept and warned
about. -/
theorem claim5_end_scope_amended :
    (∀ (ps : List String) (args : ExprList),
      endStmt (.exprStmt (.call (.member (.ident "t") (.ident "end")) args)) (some ps) =
        if ps.head? = some "t" then (none, false)
        else (some (.exprStmt (.call (.member (.ident "t") (.ident "end"))
          (endExprList args).1)), true))
    ∧ (tapeToJest (sl [.importStmt "test" "tape",
        .exprStmt (.call (.ident "test") (el [.lit (.str "x"),
          .arrowFn ["t"] (sl [
            .exprStmt (.call (.member (.ident "t") (.ident "plan")) (el [.lit (.num 1)])),
            .exprStmt (.call (.member (.ident "t") (.ident "end")) (el []))])]))]) =
      .ok (sl [.exprStmt (.call (.ident "test") (el [.lit (.str "x"),
          .arrowFn ["()"] (sl [
            .exprStmt (.call (.member (.ident "t") (.ident "plan"))
              (el [.lit (.num 1)]))])]))], []))
    ∧ (tapeToJest (sl [.importStmt "test" "tape",
        .exprStmt (.call (.ident "test") (el [.lit (.str "x"),
          .arrowFn ["t"] (sl [.exprStmt (.call (.ident "setTimeout") (el [
            .arrowFn [] (sl [.exprStmt (.call (.member (.ident "t") (.ident "end"))
              (el []))]),
            .lit (.num 0)]))])]))]) =
      .ok (sl [.exprStmt (.call (.ident "test") (el [.lit (.str "x"),
          .arrowFn ["()"] (sl [.exprStmt (.call (.ident "setTimeout") (el [
            .arrowFn [] (sl [.exprStmt (.call (.member (.ident "t") (.ident "end"))
              (el []))]),
            .lit (.num 0)]))])]))], [END_WARNING])) := by
  refine ⟨?_, rfl, rfl⟩
  intro ps args
  by_cases h : ps.head? = some "t"
  · have hb : (ps.head? == some "t") = true := by simp [h]
    simp [endStmt, isDirectTEndCall, inTestScope, hb, h]
  · have hb : (ps.head? == some "t") = false := by simp [h]
    simp [endStmt, isDirectTEndCall, inTestScope, hb, h, endExpr]

/-- Claim C6 counterexample: the claim states that a throws call with more
than two arguments raises a warning rather than being silently rewritten.
But for `test('x', t => { t.throws(fn, /err/, 'msg'); })` the transform
emits no warning at all and rewrites the call to
`expect(fn).toThrowError(/err/)`. -/
theorem claim6_throws_edge_counterexample :
    tapeToJest (sl [.importStmt "test" "tape",
      .exprStmt (.call (.ident "test") (el [.lit (.str "x"),
        .arrowFn ["t"] (sl [.exprStmt (.call (.member (.ident "t") (.ident "throws"))
          (el [.ident "fn", .lit (.regex "err"), .lit (.str "msg")]))])]))]) =
    .ok (sl [.exprStmt (.call (.ident "test") (el [.lit (.str "x"),
        .arrowFn ["()"] (sl [.exprStmt (.member
          (.call (.ident "expect") (.cons (.ident "fn") .nil))
          (.call (.ident "toThrowError") (.cons (.lit (.regex "err")) .nil)))])]))],
      []) := rfl

/-- Claim C6 amended: a throws-family call with three arguments is silently
rewritten, never warned about: whatever the second argument is (string
literal included, since the string-literal test requires exactly two
arguments), the call becomes `expect(first).toThrowError(second)` — the
assertion rewriter has no warning channel at all. -/
theorem claim6_throws_edge_amended :
    (∀ fn m x : Expr,
      assertionDispatch (.call (.member (.ident "t") (.ident "throws")) (el [fn, m, x])) =
        expectChain fn (.call (.ident "toThrowError") (.cons m .nil)))
    ∧ (∀ fn m x : Expr,
      assertionDispatch (.call (.member (.ident "t") (.ident "doesNotThrow"))
          (el [fn, m, x])) =
        expectChain fn (.call (.ident "toThrowError") (.cons m .nil))) :=
  ⟨fun _ _ _ => rfl, fun _ _ _ => rfl⟩

/-- Claim C7 counterexample: the claim states that for
`test.only('name', t => {...})` the callback parameter-stripping is
applied. But the whole transform leaves the call entirely unchanged (the
callback still has parameter `t`): the registration rewriter matches only
calls whose callee is the bare binding identifier, and a member-expression
callee has no `name` field. -/
theorem claim7_only_counterexample :
    tapeToJest (sl [.importStmt "test" "tape",
      .exprStmt (.call (.member (.ident "test") (.ident "only")) (el [.lit (.str "name"),
        .arrowFn ["t"] (sl [.exprStmt (.call (.ident "foo") (el []))])]))]) =
    .ok (sl [.exprStmt (.call (.member (.ident "test") (.ident "only"))
        (el [.lit (.str "name"),
          .arrowFn ["t"] (sl [.exprStmt (.call (.ident "foo") (el []))])]))],
      []) := rfl

/-- Claim C7 amended: a registration call with a member-expression callee
such as `test.only(...)` is not matched by the registration rewriter at
all — its callee spelling is (trivially) preserved, but no
parameter-stripping is applied either; a plain `test('name', t => {...})`
call keeps the callee spelled `test` and its callback's parameter list
becomes the placeholder that prints as empty. -/
theorem claim7_only_amended :
    (∀ (tf nm : String) (ps : List String),
      rtcExpr tf (.call (.member (.ident tf) (.ident "only"))
          (el [.lit (.str nm), .arrowFn ps (sl [])])) =
        .ok (.call (.member (.ident tf) (.ident "only"))
          (el [.lit (.str nm), .arrowFn ps (sl [])]), []))
    ∧ (∀ nm : String,
      rtcExpr "test" (.call (.ident "test") (el [.lit (.str nm), .arrowFn ["t"] (sl [])])) =
        .ok (.call (.ident "test") (el [.lit (.str nm), .arrowFn ["()"] (sl [])]), []))
    ∧ renderedParams ["()"] = [] ∧ renderedParams ["t"] = ["t"] :=
  ⟨fun _ _ _ => rfl, fun _ => rfl, rfl, rfl⟩

/-- Claim C8: the transform is idempotent — applying it to its own output
yields that output again (the first successful run removed the source
library's require/import and no pass reintroduces one, so the second run
detects no usage and is a no-op). -/
theorem claim8_idempotent (p o : StmtList) (w : List String)
    (h : tapeToJest p = .ok (o, w)) : tapeToJest o = .ok (o, []) := by
  cases hf : findImportBinding p "tape" with
  | none =>
    have h1 : tapeToJest p = .ok (p, []) := by
      simp [tapeToJest, removeRequireAndImport, hf]
    rw [h1] at h
    injection h with h2
    injection h2 with h3 h4
    subst h3
    exact h1
  | some tf =>
    simp [tapeToJest, removeRequireAndImport, hf] at h
    cases hr : rtcStmtList tf
        (mapStmts commentDispatch (mapStmts assertionDispatch (dropImports p "tape"))) with
    | error msg => rw [hr] at h; simp at h
    | ok pr =>
      cases pr with
      | mk ast3 w3 =>
        rw [hr] at h
        simp at h
        have hno : hasRequireOrImport ast3 "tape" = false := by
          rw [rtcStmtList_hasRequire tf _ ast3 w3 hr "tape",
            hasRequireOrImport_mapStmts, hasRequireOrImport_mapStmts]
          exact dropImports_no_import p "tape"
        rw [← h.1]
        exact tapeToJest_no_import ast3 hno

/-- Claim C8 witness: one concrete file, transformed twice; the second run
returns the first run's output unchanged. -/
theorem claim8_idempotent_witness :
    tapeToJest (sl [.importStmt "test" "tape",
      .exprStmt (.call (.ident "test") (el [.lit (.str "x"), .arrowFn ["t"] (sl [])]))]) =
      .ok (sl [.exprStmt (.call (.ident "test")
        (el [.lit (.str "x"), .arrowFn ["()"] (sl [])]))], [])
    ∧ tapeToJest (sl [.exprStmt (.call (.ident "test")
        (el [.lit (.str "x"), .arrowFn ["()"] (sl [])]))]) =
      .ok (sl [.exprStmt (.call (.ident "test")
        (el [.lit (.str "x"), .arrowFn ["()"] (sl [])]))], []) :=
  ⟨rfl, claim8_idempotent
    (sl [.importStmt "test" "tape",
      .exprStmt (.call (.ident "test") (el [.lit (.str "x"), .arrowFn ["t"] (sl [])]))])
    (sl [.exprStmt (.call (.ident "test")
      (el [.lit (.str "x"), .arrowFn ["()"] (sl [])]))])
    [] rfl⟩

/-- Claim C9: a zero-argument registration call `test()` matches the
rewriter, whose parameter-stripping step reads
`arguments[arguments.length - 1].type` — a property access on `undefined`
— so the transform aborts with a TypeError instead of completing or
warning. -/
theorem claim9_zero_arg_error :
    tapeToJest (sl [.importStmt "test" "tape",
      .exprStmt (.call (.ident "test") (el []))]) =
    .error "TypeError: Cannot read properties of undefined (reading 'type')" := rfl

/-- Claim C10: `t.doesNotThrow(fn, m)` with a non-string-literal second
argument rewrites to the positive assertion `expect(fn).toThrowError(m)` —
the negation implied by the name is applied only in the no-error-matcher
branch, not in the explicit-matcher branch. -/
theorem claim10_doesNotThrow_positive (fn m : Expr)
    (h : isStringLiteral m = false) :
    assertionDispatch (.call (.member (.ident "t") (.ident "doesNotThrow")) (el [fn, m])) =
      expectChain fn (.call (.ident "toThrowError") (.cons m .nil)) := by
  simp [assertionDispatch, lookupAssert, tapeToJestExpect, updateAssertionRule,
    SPECIAL_THROWS_CASE, exprListLength, getArg, exprListGet?, el, h]

/-- Claim C10 witness: `t.doesNotThrow(fn, /pat/)` rewrites to the positive
`expect(fn).toThrowError(/pat/)`. -/
theorem claim10_doesNotThrow_positive_witness :
    assertionDispatch (.call (.member (.ident "t") (.ident "doesNotThrow"))
        (el [.ident "fn", .lit (.regex "pat")])) =
      expectChain (.ident "fn")
        (.call (.ident "toThrowError") (.cons (.lit (.regex "pat")) .nil)) :=
  claim10_doesNotThrow_positive (.ident "fn") (.lit (.regex "pat")) rfl

end TapeCodemod
